import Mathlib

/-!
Verification development for the secure-messaging module of the repository
(`src/signencryptdecrypt.ts`): sign-then-encrypt messaging over secp256k1
with ECDH key agreement, deterministic ECDSA signatures and a symmetric
cipher.

Shallow embedding conventions:
* machine bytes are `Nat` (each `< 256` where produced by the code);
* strings are Lean `String` (Unicode scalar values; TypeScript strings are
  UTF-16, the difference only shows on lone surrogates which no claim uses);
* the external crypto libraries (`@noble/secp256k1` curve arithmetic and
  raw ECDSA, `@noble/hashes` SHA-256, `crypto-js` AES) are collected in the
  `CryptoLib` structure: each field corresponds to one library entry point,
  and theorems take the library facts a claim depends on (ECDH symmetry,
  ECDSA correctness, cipher round-trip) as explicit hypotheses;
* the glue code of the repository itself (hex encoding, compact-signature
  parsing, envelope serialization, protocol sequencing, error handling) is
  translated concretely, function by function;
* fallible operations (the TS functions throw) return `Except String`;
  the `try/catch` of `receiveSecureMessage` becomes the explicit mapping of
  every error into the uniform failure `VerificationResult`.
-/

namespace SecureMessaging

/-- Byte strings (`Uint8Array` in the source). -/
abbrev Bytes := List Nat

deriving instance DecidableEq for Except

/-- The group order of secp256k1 (`CURVE.n` in `@noble/secp256k1`). -/
def nOrder : Nat :=
  0xFFFFFFFFFFFFFFFFFFFFFFFFFFFFFFFEBAAEDCE6AF48A03BBFD25E8CD0364141

/-- JavaScript `arr.slice(s, e)`: the elements with indices in `[s, e)`. -/
def listSlice (s e : Nat) (l : Bytes) : Bytes := (l.take e).drop s

/-- Lowercase hexadecimal digit, as produced by `Number.prototype.toString(16)`. -/
def hexDigit (n : Nat) : Char :=
  if n < 10 then Char.ofNat (48 + n) else Char.ofNat (87 + n)

/-- Value of one hexadecimal digit; accepts both cases, like the
`hexToBytes` helper of `@noble/secp256k1`. `none` on a non-hex character. -/
def hexVal (c : Char) : Option Nat :=
  if 48 ≤ c.toNat ∧ c.toNat ≤ 57 then some (c.toNat - 48)
  else if 97 ≤ c.toNat ∧ c.toNat ≤ 102 then some (c.toNat - 87)
  else if 65 ≤ c.toNat ∧ c.toNat ≤ 70 then some (c.toNat - 55)
  else none

/-- One byte as two lowercase hex characters:
`b.toString(16).padStart(2, "0")` from the source. -/
def hexBytePadded (b : Nat) : List Char :=
  let cs := Nat.toDigits 16 b
  List.replicate (2 - cs.length) '0' ++ cs

/-- The hex-encoding idiom of the source:
`Array.from(bytes).map(b => b.toString(16).padStart(2, "0")).join("")`.
Also models `bytesToHex` of `@noble/secp256k1` (same output format). -/
def hexEncode (bs : Bytes) : String := String.mk (bs.flatMap hexBytePadded)

/-- Hex parsing on characters: consumes two hex digits per byte, fails on a
non-hex character or an odd-length input (as noble's `hexToBytes` throws). -/
def hexToBytesList : List Char → Option Bytes
  | [] => some []
  | c1 :: c2 :: rest =>
    match hexVal c1, hexVal c2, hexToBytesList rest with
    | some v1, some v2, some bs => some ((16 * v1 + v2) :: bs)
    | _, _, _ => none
  | [_] => none

/-- `hexToBytes` of `@noble/secp256k1` as a total function into `Option`. -/
def hexToBytes (s : String) : Option Bytes := hexToBytesList s.data

/-- `k`-byte big-endian encoding of `n % 256^k` (`numberToBytesBE`). -/
def natToBytesBE : Nat → Nat → Bytes
  | 0, _ => []
  | k + 1, n => natToBytesBE k (n / 256) ++ [n % 256]

/-- Big-endian value of a byte string (`bytesToNumberBE`). -/
def bytesToNatBE (bs : Bytes) : Nat := bs.foldl (fun acc b => acc * 256 + b) 0

/-- UTF-8 encoding of one Unicode scalar value. -/
def utf8EncodeChar (c : Char) : Bytes :=
  let n := c.toNat
  if n < 0x80 then [n]
  else if n < 0x800 then [0xC0 + n / 64, 0x80 + n % 64]
  else if n < 0x10000 then [0xE0 + n / 4096, 0x80 + n / 64 % 64, 0x80 + n % 64]
  else [0xF0 + n / 262144, 0x80 + n / 4096 % 64, 0x80 + n / 64 % 64, 0x80 + n % 64]

/-- `new TextEncoder().encode(message)`. -/
def utf8Encode (s : String) : Bytes := s.data.flatMap utf8EncodeChar

/-- Private-key validation of `@noble/secp256k1` (`toPriv`): exactly 32
bytes whose big-endian value lies in `[1, n)`; the parsed scalar on
success, `none` where the library throws. -/
def parsePrivScalar (bs : Bytes) : Option Nat :=
  if bs.length = 32 then
    let v := bytesToNatBE bs
    if 0 < v ∧ v < nOrder then some v else none
  else none

/-- The external cryptographic libraries used by `signencryptdecrypt.ts`.
Each field is one third-party entry point, kept abstract exactly where the
library performs curve arithmetic or symmetric encryption; everything the
repository's own code does with the results is modelled concretely.

* `Point`, `parsePoint`, `pubPoint`, `mulPoint`, `pointX`, `pointY`:
  the secp256k1 group of `@noble/secp256k1` (`Point.fromHex`, scalar
  multiplication of the base point, `Point.mul`, affine coordinates);
* `signRaw msgHash priv extraEntropy`: the raw ECDSA signer `secp.sign`
  (RFC 6979 deterministic nonce via the `hmacSha256Sync` hook installed at
  the top of the file; the code passes no `extraEntropy`, hence `none`);
* `verifyRaw sig msgHash pubBytes`: `secp.verify`, a total `Bool` — the
  library wraps its body in try/catch and returns `false` on any error
  (bad public key bytes, point not on curve, ...);
* `sha256`: SHA-256 from `@noble/hashes`;
* `aesEncrypt plaintext passphrase salt`: `CryptoJS.AES.encrypt(...).toString()`
  — the `salt` argument models the fresh random salt CryptoJS draws;
* `aesDecrypt ciphertext passphrase`: `CryptoJS.AES.decrypt` followed by
  `toString(CryptoJS.enc.Utf8)`; `none` where that throws (malformed UTF-8);
* `randomPrivateKey seed`: `secp.utils.randomPrivateKey()`, reading the
  process CSPRNG (modelled by the `seed`). -/
structure CryptoLib where
  Point : Type
  parsePoint : Bytes → Option Point
  pubPoint : Nat → Point
  mulPoint : Nat → Point → Point
  pointX : Point → Nat
  pointY : Point → Nat
  signRaw : Bytes → Nat → Option Bytes → Nat × Nat
  verifyRaw : Nat × Nat → Bytes → Bytes → Bool
  sha256 : Bytes → Bytes
  aesEncrypt : String → String → Nat → String
  aesDecrypt : String → String → Option String
  randomPrivateKey : Nat → Bytes

/-- SEC1 compressed point encoding (`Point.toRawBytes(true)`): parity
prefix `0x02`/`0x03` followed by the 32-byte big-endian x-coordinate. -/
def encodeCompressed (L : CryptoLib) (P : L.Point) : Bytes :=
  (if L.pointY P % 2 = 0 then 2 else 3) :: natToBytesBE 32 (L.pointX P)

/-- SEC1 uncompressed point encoding (`Point.toRawBytes(false)`):
`0x04` followed by the 32-byte x- and y-coordinates. -/
def encodeUncompressed (L : CryptoLib) (P : L.Point) : Bytes :=
  4 :: (natToBytesBE 32 (L.pointX P) ++ natToBytesBE 32 (L.pointY P))

/-- `secp.getSharedSecret(privA, pubB)` of `@noble/secp256k1` v2:
`Point.fromHex(pubB).mul(toPriv(privA)).toRawBytes(true)` (compressed by
default). Errors where the library throws on malformed keys. -/
def getSharedSecret (L : CryptoLib) (privBytes pubBytes : Bytes) :
    Except String Bytes :=
  match L.parsePoint pubBytes with
  | none => Except.error "Point of length 33/65 expected"
  | some B =>
    match parsePrivScalar privBytes with
    | none => Except.error "private key invalid"
    | some a => Except.ok (encodeCompressed L (L.mulPoint a B))

/-- `deriveECDHSharedKey` (source lines 55-66): ECDH shared point, then
SHA-256 of `sharedPoint.slice(1, 33)` (the x-coordinate), hex-encoded. -/
def deriveECDHSharedKey (L : CryptoLib) (privateKeyBytes publicKeyBytes : Bytes) :
    Except String String :=
  (getSharedSecret L privateKeyBytes publicKeyBytes).map fun sharedPoint =>
    hexEncode (L.sha256 (listSlice 1 33 sharedPoint))

/-- `Signature.prototype.toCompactHex`: 64-byte big-endian `r ∥ s`, hex. -/
def toCompactHex (rs : Nat × Nat) : String :=
  hexEncode (natToBytesBE 32 rs.1 ++ natToBytesBE 32 rs.2)

/-- `secp.Signature.fromCompact` of `@noble/secp256k1`: parses 64 bytes of
hex into `(r, s)` and asserts `0 < r < n` and `0 < s < n`; throws (here:
`Except.error`) on any malformed input. -/
def fromCompact (hex : String) : Except String (Nat × Nat) :=
  match hexToBytes hex with
  | none => Except.error "hex invalid"
  | some b =>
    if b.length = 64 then
      let r := bytesToNatBE (listSlice 0 32 b)
      let s := bytesToNatBE (listSlice 32 64 b)
      if 0 < r ∧ r < nOrder ∧ 0 < s ∧ s < nOrder then Except.ok (r, s)
      else Except.error "invalid signature: out of range r or s"
    else Except.error "invalid signature: expected 64 bytes"

/-- `signMessage` (source lines 71-79): SHA-256 of the UTF-8 message bytes,
deterministic ECDSA over the digest, compact hex output. The `rand`
argument models the process randomness available during the call; the
implementation's deterministic path (RFC 6979 nonce, no `extraEntropy`)
never draws from it. -/
def signMessage (L : CryptoLib) (message : String) (privateKeyBytes : Bytes)
    (rand : Nat) : Except String String :=
  let messageBytes := utf8Encode message
  let messageHash := L.sha256 messageBytes
  match parsePrivScalar privateKeyBytes with
  | none => Except.error "private key invalid"
  | some a => Except.ok (toCompactHex (L.signRaw messageHash a none))

/-- `verifySignature` (source lines 84-93): recompute the digest, parse the
compact signature (`Signature.fromCompact` — throws on malformed input!),
then `secp.verify` (total, `false` on any internal error). -/
def verifySignature (L : CryptoLib) (message signatureHex : String)
    (publicKey : Bytes) : Except String Bool :=
  let messageBytes := utf8Encode message
  let messageHash := L.sha256 messageBytes
  match fromCompact signatureHex with
  | Except.error e => Except.error e
  | Except.ok rs => Except.ok (L.verifyRaw rs messageHash publicKey)

/-- The signed plaintext structure built in `sendSecureMessage` (source
lines 109-116): message, compact-hex signature, ISO timestamp, hex-encoded
sender public key (the JSON field `"from"`, here `fromStr`). -/
structure Envelope where
  message : String
  signature : String
  timestamp : String
  fromStr : String
deriving DecidableEq

/-- One character of `JSON.stringify` string escaping: `"` and `\` get a
backslash, the named control escapes are used for 0x08..0x0D, remaining
control characters become `\u00xx`, everything else is copied verbatim. -/
def escapeChar (c : Char) : List Char :=
  if c = '"' then ['\\', '"']
  else if c = '\\' then ['\\', '\\']
  else if c = Char.ofNat 8 then ['\\', 'b']
  else if c = Char.ofNat 9 then ['\\', 't']
  else if c = Char.ofNat 10 then ['\\', 'n']
  else if c = Char.ofNat 12 then ['\\', 'f']
  else if c = Char.ofNat 13 then ['\\', 'r']
  else if c.toNat < 32 then
    ['\\', 'u', '0', '0', hexDigit (c.toNat / 16), hexDigit (c.toNat % 16)]
  else [c]

/-- `JSON.stringify` escaping of a whole string body. -/
def escapeList (l : List Char) : List Char := l.flatMap escapeChar

/-- `JSON.stringify({ message, signature, timestamp, from })` as a
character list: object-literal insertion order, no whitespace, each value
a quoted escaped string. Written with the terminating quote of each value
split off so that the text groups as
`open ∥ body₁ ∥ '"' ∥ sep ∥ body₂ ∥ ...` (`\x7b`/`\x7d` are `{`/`}`). -/
def stringifyEnvelopeChars (e : Envelope) : List Char :=
  "\x7b\"message\":\"".data ++
    (escapeList e.message.data ++ ('"' ::
      (",\"signature\":\"".data ++
        (escapeList e.signature.data ++ ('"' ::
          (",\"timestamp\":\"".data ++
            (escapeList e.timestamp.data ++ ('"' ::
              (",\"from\":\"".data ++
                (escapeList e.fromStr.data ++ ('"' :: "\x7d".data)))))))))))

/-- `JSON.stringify` of the signed package (source line 109). -/
def stringifyEnvelope (e : Envelope) : String :=
  String.mk (stringifyEnvelopeChars e)

/-- Single named escape of a JSON string (`\" \\ \/ \b \f \n \r \t`). -/
def escCode (c : Char) : Option Char :=
  if c = '"' then some '"'
  else if c = '\\' then some '\\'
  else if c = '/' then some '/'
  else if c = 'b' then some (Char.ofNat 8)
  else if c = 'f' then some (Char.ofNat 12)
  else if c = 'n' then some (Char.ofNat 10)
  else if c = 'r' then some (Char.ofNat 13)
  else if c = 't' then some (Char.ofNat 9)
  else none

/-- JSON string-body parser: consumes characters up to an unescaped `"`
(which is consumed), undoing `JSON.stringify` escaping; fails on raw
control characters, bad escapes and unterminated strings, as `JSON.parse`
throws there. -/
def parseStrChars : List Char → Option (List Char × List Char)
  | [] => none
  | c :: rest =>
    if c = '"' then some ([], rest)
    else if c = '\\' then
      match rest with
      | 'u' :: a :: b :: c2 :: d :: rest2 =>
        match hexVal a, hexVal b, hexVal c2, hexVal d, parseStrChars rest2 with
        | some va, some vb, some vc, some vd, some (s, r) =>
          some (Char.ofNat (4096 * va + 256 * vb + 16 * vc + vd) :: s, r)
        | _, _, _, _, _ => none
      | e :: rest2 =>
        match escCode e, parseStrChars rest2 with
        | some ch, some (s, r) => some (ch :: s, r)
        | _, _ => none
      | [] => none
    else if c.toNat < 32 then none
    else
      match parseStrChars rest with
      | some (s, r) => some (c :: s, r)
      | none => none

/-- `if pre.isPrefixOf l` then the remainder: one literal piece of the
canonical envelope layout. -/
def expectChars (pre l : List Char) : Option (List Char) :=
  if l.take pre.length = pre then some (l.drop pre.length) else none

/-- `JSON.parse(signedPackage)` followed by the destructuring
`const { message, signature, timestamp, from } = ...` (source line 162),
restricted to the canonical serialization layout that `stringifyEnvelope`
produces. Non-canonical decrypted plaintexts are rejected; in the TS code
those inputs reach the same uniform failure result through the enclosing
`catch` (or through `verifySignature` failing on the garbage fields), so
no claim below distinguishes the two. -/
def parseEnvChars (l : List Char) : Option Envelope :=
  match expectChars "\x7b\"message\":\"".data l with
  | none => none
  | some l1 =>
    match parseStrChars l1 with
    | none => none
    | some (m, l2) =>
      match expectChars ",\"signature\":\"".data l2 with
      | none => none
      | some l3 =>
        match parseStrChars l3 with
        | none => none
        | some (sg, l4) =>
          match expectChars ",\"timestamp\":\"".data l4 with
          | none => none
          | some l5 =>
            match parseStrChars l5 with
            | none => none
            | some (ts, l6) =>
              match expectChars ",\"from\":\"".data l6 with
              | none => none
              | some l7 =>
                match parseStrChars l7 with
                | none => none
                | some (fr, l8) =>
                  if l8 = "\x7d".data then
                    some ⟨String.mk m, String.mk sg, String.mk ts, String.mk fr⟩
                  else none

/-- `sendSecureMessage` (source lines 99-128): sign, build the signed
package, derive the ECDH shared secret, encrypt the whole package. The
`timestamp` argument models `new Date().toISOString()` and `rng` the fresh
randomness consumed by the call (the CryptoJS salt). -/
def sendSecureMessage (L : CryptoLib) (message : String)
    (senderPrivateKey senderPublicKey receiverPublicKey : Bytes)
    (timestamp : String) (rng : Nat) : Except String String :=
  match signMessage L message senderPrivateKey rng with
  | Except.error e => Except.error e
  | Except.ok signature =>
    let signedPackage := stringifyEnvelope
      ⟨message, signature, timestamp, hexEncode senderPublicKey⟩
    match deriveECDHSharedKey L senderPrivateKey receiverPublicKey with
    | Except.error e => Except.error e
    | Except.ok sharedSecret =>
      Except.ok (L.aesEncrypt signedPackage sharedSecret rng)

/-- The result shape of `receiveSecureMessage` (source lines 138-144);
`fromStr` is the TS field `from`, `none` models `null`/`undefined`. -/
structure VerificationResult where
  message : Option String
  verified : Bool
  timestamp : String
  fromStr : String
  error : Option String
deriving DecidableEq

/-- The `catch` clause of `receiveSecureMessage` (source lines 177-187). -/
def recvFailure (e : String) : VerificationResult :=
  { message := none, verified := false, timestamp := "", fromStr := "",
    error := some ("Decryption/Verification failed: " ++ e) }

/-- `receiveSecureMessage` (source lines 134-188): derive the shared
secret, decrypt, reject an empty plaintext, parse the envelope, verify the
signature, and only expose the message when the signature is valid. Every
step that throws in TS lands in the `catch`, modelled by `recvFailure`. -/
def receiveSecureMessage (L : CryptoLib) (encryptedPackage : String)
    (receiverPrivateKey senderPublicKey : Bytes) : VerificationResult :=
  match deriveECDHSharedKey L receiverPrivateKey senderPublicKey with
  | Except.error e => recvFailure e
  | Except.ok sharedSecret =>
    match L.aesDecrypt encryptedPackage sharedSecret with
    | none => recvFailure "Malformed UTF-8 data"
    | some signedPackage =>
      if signedPackage = "" then
        recvFailure "Decryption failed - invalid shared secret or corrupted data"
      else
        match parseEnvChars signedPackage.data with
        | none => recvFailure "Unexpected token in JSON"
        | some env =>
          match verifySignature L env.message env.signature senderPublicKey with
          | Except.error e => recvFailure e
          | Except.ok isValid =>
            { message := if isValid then some env.message else none
              verified := isValid
              timestamp := env.timestamp
              fromStr := env.fromStr
              error := if isValid then none
                else some "Signature verification failed - message may be tampered or fake" }

/-- The key pair record returned by `generateKeyPair`. -/
structure KeyPair where
  privateKeyBytes : Bytes
  publicKeyBytes : Bytes

/-- `secp.getPublicKey(priv, isCompressed)`: validate the private scalar,
encode the public point. -/
def getPublicKey (L : CryptoLib) (privBytes : Bytes) (isCompressed : Bool) :
    Except String Bytes :=
  match parsePrivScalar privBytes with
  | none => Except.error "private key invalid"
  | some a =>
    Except.ok (if isCompressed then encodeCompressed L (L.pubPoint a)
               else encodeUncompressed L (L.pubPoint a))

/-- `generateKeyPair` (source lines 193-200): a fresh random private key
and its uncompressed public key. -/
def generateKeyPair (L : CryptoLib) (seed : Nat) : Except String KeyPair :=
  let privateKeyBytes := L.randomPrivateKey seed
  match getPublicKey L privateKeyBytes false with
  | Except.error e => Except.error e
  | Except.ok publicKeyBytes => Except.ok ⟨privateKeyBytes, publicKeyBytes⟩

/-! ### A concrete executable instance of the external libraries

`modelLib` instantiates `CryptoLib` with the standard discrete-log model of
the secp256k1 group: a point is identified with its discrete logarithm
with respect to the base point, an element of `ZMod n` represented as a
`Nat` below `nOrder` (the curve group is cyclic of prime order `n`, so
this is the group up to the canonical isomorphism). Scalar multiplication
becomes multiplication mod `n`, which makes the ECDH symmetry law provable
rather than assumed. The hash is a simple injective-by-construction
executable digest, the signature scheme a correct-by-construction scheme
with signatures in the valid compact range, and the cipher the identity on
plaintexts — each satisfies exactly the interface facts the theorems below
take as hypotheses, so it serves as the witness instantiation. -/

/-- Deterministic mixing of a digest and a scalar used by the model
signature scheme. -/
def sigMix (hash : Bytes) (x : Nat) : Nat := bytesToNatBE hash + x

/-- Executable model instantiation of the external libraries (discrete-log
model of the curve group). -/
def modelLib : CryptoLib where
  Point := Nat
  parsePoint bs := some (bytesToNatBE bs % nOrder)
  pubPoint a := a % nOrder
  mulPoint a P := a * P % nOrder
  pointX P := P
  pointY P := P
  signRaw hash a _extra := (1 + sigMix hash (a % nOrder) % (nOrder - 1), 1)
  verifyRaw rs hash pk :=
    rs = (1 + sigMix hash (bytesToNatBE pk % nOrder) % (nOrder - 1), 1)
  sha256 bs := natToBytesBE 32 (bs.foldl (fun acc b => acc * 256 + b + 1) 7)
  aesEncrypt pt _key _salt := pt
  aesDecrypt ct _key := some ct
  randomPrivateKey seed := natToBytesBE 32 (1 + seed % (nOrder - 1))

/-- Model private key bytes of the scalar `2` (Alice in the witnesses). -/
def aPrivW : Bytes := natToBytesBE 32 2

/-- Model public key bytes whose parsed point is `modelLib.pubPoint 2`. -/
def aPubW : Bytes := natToBytesBE 32 2

/-- Model private key bytes of the scalar `3` (Bob in the witnesses). -/
def bPrivW : Bytes := natToBytesBE 32 3

/-- Model public key bytes whose parsed point is `modelLib.pubPoint 3`. -/
def bPubW : Bytes := natToBytesBE 32 3

/-! ### Byte-string and hex-encoding lemmas -/

/-- `natToBytesBE` produces exactly `k` bytes. -/
theorem natToBytesBE_length (k n : Nat) : (natToBytesBE k n).length = k := by
  induction k generalizing n with
  | zero => rfl
  | succ k ih => simp [natToBytesBE, ih]

/-- Every entry of `natToBytesBE` is a byte. -/
theorem natToBytesBE_lt (k n : Nat) : ∀ b ∈ natToBytesBE k n, b < 256 := by
  induction k generalizing n with
  | zero => simp [natToBytesBE]
  | succ k ih =>
    intro b hb
    rw [natToBytesBE] at hb
    rcases List.mem_append.1 hb with h | h
    · exact ih _ _ h
    · simp at h; omega

/-- Appending one byte multiplies the big-endian value by 256. -/
theorem bytesToNatBE_concat (A : Bytes) (b : Nat) :
    bytesToNatBE (A ++ [b]) = bytesToNatBE A * 256 + b := by
  simp [bytesToNatBE, List.foldl_append]

/-- Big-endian encode/decode round trip, up to the modulus. -/
theorem bytesToNatBE_natToBytesBE (k n : Nat) :
    bytesToNatBE (natToBytesBE k n) = n % 256 ^ k := by
  induction k generalizing n with
  | zero => simp [natToBytesBE, bytesToNatBE, Nat.mod_one]
  | succ k ih =>
    rw [natToBytesBE, bytesToNatBE_concat, ih, pow_succ, Nat.mul_comm (256 ^ k) 256,
      Nat.mod_mul]
    omega

/-- Big-endian encode/decode round trip below the modulus. -/
theorem bytesToNatBE_natToBytesBE_of_lt {k n : Nat} (h : n < 256 ^ k) :
    bytesToNatBE (natToBytesBE k n) = n := by
  rw [bytesToNatBE_natToBytesBE, Nat.mod_eq_of_lt h]

/-- Parsing a hex digit undoes printing one. -/
theorem hexVal_hexDigit : ∀ d, d < 16 → hexVal (hexDigit d) = some d := by decide

set_option maxRecDepth 4000 in
/-- For a byte, the padded hex pair is digit of quotient then remainder. -/
theorem hexBytePadded_eq :
    ∀ b, b < 256 → hexBytePadded b = [hexDigit (b / 16), hexDigit (b % 16)] := by
  decide

/-- Hex parsing undoes the hex encoding of any byte string. -/
theorem hexToBytesList_encode (bs : Bytes) (h : ∀ b ∈ bs, b < 256) :
    hexToBytesList (bs.flatMap hexBytePadded) = some bs := by
  induction bs with
  | nil => rfl
  | cons b t ih =>
    have hb : b < 256 := h b (List.mem_cons_self b t)
    rw [List.flatMap_cons, hexBytePadded_eq b hb]
    show hexToBytesList
      (hexDigit (b / 16) :: hexDigit (b % 16) :: t.flatMap hexBytePadded) = some (b :: t)
    rw [hexToBytesList, hexVal_hexDigit _ (by omega),
      hexVal_hexDigit _ (Nat.mod_lt _ (by omega)),
      ih (fun x hx => h x (List.mem_cons_of_mem _ hx))]
    simp
    omega

/-- `hexToBytes` inverts `hexEncode` on byte strings. -/
theorem hexToBytes_hexEncode (bs : Bytes) (h : ∀ b ∈ bs, b < 256) :
    hexToBytes (hexEncode bs) = some bs :=
  hexToBytesList_encode bs h

/-- Valid range of a compact signature component (`assertValidity` of
`@noble/secp256k1`). -/
def sigRange (rs : Nat × Nat) : Prop :=
  0 < rs.1 ∧ rs.1 < nOrder ∧ 0 < rs.2 ∧ rs.2 < nOrder

/-- `Signature.fromCompact` inverts `toCompactHex` on in-range signatures. -/
theorem fromCompact_toCompactHex (rs : Nat × Nat) (h : sigRange rs) :
    fromCompact (toCompactHex rs) = Except.ok rs := by
  obtain ⟨hr0, hr, hs0, hs⟩ := h
  have hlt : nOrder < 256 ^ 32 := by decide
  have hb : ∀ b ∈ natToBytesBE 32 rs.1 ++ natToBytesBE 32 rs.2, b < 256 := by
    intro b hb
    rcases List.mem_append.1 hb with h | h
    · exact natToBytesBE_lt _ _ b h
    · exact natToBytesBE_lt _ _ b h
  have hlen1 : (natToBytesBE 32 rs.1).length = 32 := natToBytesBE_length ..
  have hlen : (natToBytesBE 32 rs.1 ++ natToBytesBE 32 rs.2).length = 64 := by
    simp [natToBytesBE_length]
  have hsl1 : listSlice 0 32 (natToBytesBE 32 rs.1 ++ natToBytesBE 32 rs.2) =
      natToBytesBE 32 rs.1 := by
    rw [listSlice, List.take_left' hlen1, List.drop_zero]
  have hsl2 : listSlice 32 64 (natToBytesBE 32 rs.1 ++ natToBytesBE 32 rs.2) =
      natToBytesBE 32 rs.2 := by
    rw [listSlice, List.take_of_length_le (by omega), List.drop_left' hlen1]
  have e1 : bytesToNatBE (natToBytesBE 32 rs.1) = rs.1 :=
    bytesToNatBE_natToBytesBE_of_lt (by omega)
  have e2 : bytesToNatBE (natToBytesBE 32 rs.2) = rs.2 :=
    bytesToNatBE_natToBytesBE_of_lt (by omega)
  rw [toCompactHex, fromCompact, show hexToBytes (hexEncode (natToBytesBE 32 rs.1 ++
    natToBytesBE 32 rs.2)) = some (natToBytesBE 32 rs.1 ++ natToBytesBE 32 rs.2) from
    hexToBytes_hexEncode _ hb]
  simp only [hlen, reduceIte, hsl1, hsl2, e1, e2]
  rw [if_pos ⟨hr0, hr, hs0, hs⟩]

/-! ### Envelope serialization round trip -/

/-- Consuming a literal piece of the canonical layout. -/
theorem expectChars_append (pre l : List Char) : expectChars pre (pre ++ l) = some l := by
  rw [expectChars, if_pos (List.take_left pre l), List.drop_left]

/-- The JSON string parser undoes `JSON.stringify` escaping: reading the
escaped body followed by a closing quote returns the original body and the
remainder. -/
theorem parseStrChars_escape (l rest : List Char) :
    parseStrChars (escapeList l ++ '"' :: rest) = some (l, rest) := by
  induction l with
  | nil => simp [escapeList, parseStrChars.eq_def]
  | cons c t ih =>
    rw [escapeList, List.flatMap_cons, List.append_assoc,
      show t.flatMap escapeChar = escapeList t from rfl]
    by_cases h1 : c = '"'
    · subst h1
      rw [show escapeChar '"' = ['\\', '"'] from rfl, List.cons_append,
        List.singleton_append, parseStrChars.eq_def]
      simp [escCode, ih]
    by_cases h2 : c = '\\'
    · subst h2
      rw [show escapeChar '\\' = ['\\', '\\'] from rfl, List.cons_append,
        List.singleton_append, parseStrChars.eq_def]
      simp [escCode, ih]
    by_cases h3 : c = Char.ofNat 8
    · subst h3
      rw [show escapeChar (Char.ofNat 8) = ['\\', 'b'] from rfl, List.cons_append,
        List.singleton_append, parseStrChars.eq_def]
      simp [escCode, ih]
    by_cases h4 : c = Char.ofNat 9
    · subst h4
      rw [show escapeChar (Char.ofNat 9) = ['\\', 't'] from rfl, List.cons_append,
        List.singleton_append, parseStrChars.eq_def]
      simp [escCode, ih]
    by_cases h5 : c = Char.ofNat 10
    · subst h5
      rw [show escapeChar (Char.ofNat 10) = ['\\', 'n'] from rfl, List.cons_append,
        List.singleton_append, parseStrChars.eq_def]
      simp [escCode, ih]
    by_cases h6 : c = Char.ofNat 12
    · subst h6
      rw [show escapeChar (Char.ofNat 12) = ['\\', 'f'] from rfl, List.cons_append,
        List.singleton_append, parseStrChars.eq_def]
      simp [escCode, ih]
    by_cases h7 : c = Char.ofNat 13
    · subst h7
      rw [show escapeChar (Char.ofNat 13) = ['\\', 'r'] from rfl, List.cons_append,
        List.singleton_append, parseStrChars.eq_def]
      simp [escCode, ih]
    by_cases h8 : c.toNat < 32
    · rw [escapeChar, if_neg h1, if_neg h2, if_neg h3, if_neg h4, if_neg h5, if_neg h6,
        if_neg h7, if_pos h8]
      rw [List.cons_append, List.cons_append, List.cons_append, List.cons_append,
        List.cons_append, List.singleton_append, parseStrChars.eq_def]
      have hx : 16 * (c.toNat / 16) + c.toNat % 16 = c.toNat := by omega
      have hv1 : hexVal (hexDigit (c.toNat / 16)) = some (c.toNat / 16) :=
        hexVal_hexDigit _ (by omega)
      have hv2 : hexVal (hexDigit (c.toNat % 16)) = some (c.toNat % 16) :=
        hexVal_hexDigit _ (Nat.mod_lt _ (by omega))
      simp [show hexVal '0' = some 0 from rfl, hv1, hv2, ih, hx, Char.ofNat_toNat]
    · rw [escapeChar, if_neg h1, if_neg h2, if_neg h3, if_neg h4, if_neg h5, if_neg h6,
        if_neg h7, if_neg h8, List.singleton_append, parseStrChars.eq_def]
      simp only [if_neg h1, if_neg h2, if_neg h8, ih]

/-- Parsing the canonical serialization recovers the envelope. -/
theorem parseEnv_stringify (e : Envelope) :
    parseEnvChars (stringifyEnvelopeChars e) = some e := by
  rw [stringifyEnvelopeChars, parseEnvChars]
  rw [expectChars_append]
  simp only [parseStrChars_escape, expectChars_append]
  rfl

/-- The serialized envelope is never the empty string (it starts with a
brace), so the falsiness check in `receiveSecureMessage` passes. -/
theorem stringifyEnvelope_ne_empty (e : Envelope) : stringifyEnvelope e ≠ "" := by
  intro h
  have h4 : stringifyEnvelopeChars e = [] := congrArg String.data h
  have h2 := parseEnv_stringify e
  rw [h4] at h2
  exact Option.noConfusion (show (none : Option Envelope) = some e from h2)

/-- Unfolding of the string wrapper around the serialized characters. -/
theorem stringifyEnvelope_data (e : Envelope) :
    (stringifyEnvelope e).data = stringifyEnvelopeChars e := rfl

/-! ### Facts about the model instantiation `modelLib` -/

/-- In the discrete-log model, the two ECDH shared points agree: scalar
multiplication commutes. -/
theorem modelLib_mul_symm (a b : Nat) :
    modelLib.mulPoint a (modelLib.pubPoint b) =
      modelLib.mulPoint b (modelLib.pubPoint a) := by
  show a * (b % nOrder) % nOrder = b * (a % nOrder) % nOrder
  rw [Nat.mul_mod_mod, Nat.mul_mod_mod, Nat.mul_comm]

/-- The model signature scheme only emits signatures in the compact-valid
range. -/
theorem modelLib_sigRange (h : Bytes) (a : Nat) :
    sigRange (modelLib.signRaw h a none) := by
  have h1 : 0 < nOrder - 1 := by decide
  have hn : 2 ≤ nOrder := by decide
  have h2 : sigMix h (a % nOrder) % (nOrder - 1) < nOrder - 1 := Nat.mod_lt _ h1
  show 0 < 1 + sigMix h (a % nOrder) % (nOrder - 1) ∧
    1 + sigMix h (a % nOrder) % (nOrder - 1) < nOrder ∧ 0 < 1 ∧ 1 < nOrder
  exact ⟨by omega, by omega, by omega, by omega⟩

/-- The model signature scheme is correct: a signature by the scalar `a`
verifies against the 32-byte big-endian encoding of `a`. -/
theorem modelLib_verify_sign (h : Bytes) (a : Nat) (ha : a < nOrder) :
    modelLib.verifyRaw (modelLib.signRaw h a none) h (natToBytesBE 32 a) = true := by
  have hlt : nOrder < 256 ^ 32 := by decide
  have e1 : bytesToNatBE (natToBytesBE 32 a) = a :=
    bytesToNatBE_natToBytesBE_of_lt (by omega)
  show decide (_ = _) = true
  rw [decide_eq_true_eq]
  show (1 + sigMix h (a % nOrder) % (nOrder - 1), 1) =
    (1 + sigMix h (bytesToNatBE (natToBytesBE 32 a) % nOrder) % (nOrder - 1), 1)
  rw [e1]

/-- The model cipher decrypts what it encrypts (the only fact about
`CryptoJS.AES` that the round-trip theorems assume). -/
theorem modelLib_aes (pt key : String) (salt : Nat) :
    modelLib.aesDecrypt (modelLib.aesEncrypt pt key salt) key = some pt := rfl

/-! ### The central send/receive round trip -/

/-- Sending then receiving succeeds and returns the original message, the
timestamp, the hex sender key and `verified = true`, provided the external
libraries satisfy their contracts: valid key pairs (`hA, hB, hPA, hPB`),
ECDH symmetry of the curve group (`hsymm`), the cipher round trip
(`haes`), in-range signatures (`hrange`) and ECDSA correctness for the
sender's key pair (`hver`). -/
theorem receive_send_roundTrip (L : CryptoLib) (a b : Nat)
    (aPriv aPub bPriv bPub : Bytes) (m ts : String) (rng : Nat)
    (hA : parsePrivScalar aPriv = some a)
    (hB : parsePrivScalar bPriv = some b)
    (hPA : L.parsePoint aPub = some (L.pubPoint a))
    (hPB : L.parsePoint bPub = some (L.pubPoint b))
    (hsymm : L.mulPoint a (L.pubPoint b) = L.mulPoint b (L.pubPoint a))
    (haes : ∀ pt key salt, L.aesDecrypt (L.aesEncrypt pt key salt) key = some pt)
    (hrange : ∀ h, sigRange (L.signRaw h a none))
    (hver : ∀ h, L.verifyRaw (L.signRaw h a none) h aPub = true) :
    (sendSecureMessage L m aPriv aPub bPub ts rng).map
      (fun pkg => receiveSecureMessage L pkg bPriv aPub) =
    Except.ok { message := some m, verified := true, timestamp := ts,
                fromStr := hexEncode aPub, error := none } := by
  have hsig : signMessage L m aPriv rng =
      Except.ok (toCompactHex (L.signRaw (L.sha256 (utf8Encode m)) a none)) := by
    simp only [signMessage, hA]
  have hderS : deriveECDHSharedKey L aPriv bPub =
      Except.ok (hexEncode (L.sha256 (listSlice 1 33
        (encodeCompressed L (L.mulPoint a (L.pubPoint b)))))) := by
    simp only [deriveECDHSharedKey, getSharedSecret, hPB, hA, Except.map]
  have hderR : deriveECDHSharedKey L bPriv aPub =
      Except.ok (hexEncode (L.sha256 (listSlice 1 33
        (encodeCompressed L (L.mulPoint a (L.pubPoint b)))))) := by
    simp only [deriveECDHSharedKey, getSharedSecret, hPA, hB, Except.map, ← hsymm]
  have hsend : sendSecureMessage L m aPriv aPub bPub ts rng =
      Except.ok (L.aesEncrypt
        (stringifyEnvelope ⟨m, toCompactHex (L.signRaw (L.sha256 (utf8Encode m)) a none),
          ts, hexEncode aPub⟩)
        (hexEncode (L.sha256 (listSlice 1 33
          (encodeCompressed L (L.mulPoint a (L.pubPoint b)))))) rng) := by
    simp only [sendSecureMessage, hsig, hderS]
  rw [hsend]
  rw [show ∀ (x : String) (f : String → VerificationResult),
    (Except.ok (ε := String) x).map f = Except.ok (f x) from fun _ _ => rfl]
  have hfc := fromCompact_toCompactHex _ (hrange (L.sha256 (utf8Encode m)))
  have hv := hver (L.sha256 (utf8Encode m))
  simp only [receiveSecureMessage, hderR, haes,
    if_neg (stringifyEnvelope_ne_empty
      ⟨m, toCompactHex (L.signRaw (L.sha256 (utf8Encode m)) a none), ts, hexEncode aPub⟩),
    stringifyEnvelope_data, parseEnv_stringify, verifySignature, hfc, hv, if_true]

/-- Every error produced by the catch-all failure result is non-empty. -/
theorem recvFailure_error_pos (e : String) :
    ∃ s, (recvFailure e).error = some s ∧ 0 < s.length := by
  refine ⟨_, rfl, ?_⟩
  rw [String.length_append]
  have h : 0 < "Decryption/Verification failed: ".length := by decide
  omega

/-- Shape analysis of `receiveSecureMessage`: either the signature checked
out, or the caller gets `message = none` together with a non-empty error
description. -/
theorem receive_failure_shape (L : CryptoLib) (pkg : String) (rk sp : Bytes) :
    (receiveSecureMessage L pkg rk sp).verified = true ∨
    ((receiveSecureMessage L pkg rk sp).message = none ∧
      ∃ e, (receiveSecureMessage L pkg rk sp).error = some e ∧ 0 < e.length) := by
  unfold receiveSecureMessage
  repeat' split
  · exact Or.inr ⟨rfl, recvFailure_error_pos _⟩
  · exact Or.inr ⟨rfl, recvFailure_error_pos _⟩
  · exact Or.inr ⟨rfl, recvFailure_error_pos _⟩
  · exact Or.inr ⟨rfl, recvFailure_error_pos _⟩
  · exact Or.inr ⟨rfl, recvFailure_error_pos _⟩
  · rename_i hval
    exact Or.inl hval
  · exact Or.inr ⟨rfl, ⟨_, rfl, by decide⟩⟩

/-! ### The claims -/

/-- C1: for valid secp256k1 key pairs A and B and any UTF-8 message `m`,
`receiveSecureMessage (sendSecureMessage m A.priv A.pub B.pub) B.priv A.pub`
returns a result whose `message` field is `m` and whose `verified` field
is `true`, given the library contracts: both private keys parse to the
scalars of the respective public points, the curve's ECDH symmetry, the
cipher round trip, and in-range correct ECDSA signatures for A's pair. -/
theorem claim1_roundTrip (L : CryptoLib) (a b : Nat)
    (aPriv aPub bPriv bPub : Bytes) (m ts : String) (rng : Nat)
    (hA : parsePrivScalar aPriv = some a)
    (hB : parsePrivScalar bPriv = some b)
    (hPA : L.parsePoint aPub = some (L.pubPoint a))
    (hPB : L.parsePoint bPub = some (L.pubPoint b))
    (hsymm : L.mulPoint a (L.pubPoint b) = L.mulPoint b (L.pubPoint a))
    (haes : ∀ pt key salt, L.aesDecrypt (L.aesEncrypt pt key salt) key = some pt)
    (hrange : ∀ h, sigRange (L.signRaw h a none))
    (hver : ∀ h, L.verifyRaw (L.signRaw h a none) h aPub = true) :
    (sendSecureMessage L m aPriv aPub bPub ts rng).map
      (fun pkg => receiveSecureMessage L pkg bPriv aPub) =
    Except.ok { message := some m, verified := true, timestamp := ts,
                fromStr := hexEncode aPub, error := none } :=
  receive_send_roundTrip L a b aPriv aPub bPriv bPub m ts rng
    hA hB hPA hPB hsymm haes hrange hver

/-- Witness for C1: the round trip evaluated in the model instantiation on
the concrete message of the spec's scenario, with every hypothesis
discharged on the model. -/
theorem claim1_roundTrip_witness :
    (sendSecureMessage modelLib "Meet at midnight" aPrivW aPubW bPubW
        "2026-10-11T00:00:00.000Z" 0).map
      (fun pkg => receiveSecureMessage modelLib pkg bPrivW aPubW) =
    Except.ok { message := some "Meet at midnight", verified := true,
                timestamp := "2026-10-11T00:00:00.000Z",
                fromStr := hexEncode aPubW, error := none } :=
  claim1_roundTrip modelLib 2 3 aPrivW aPubW bPrivW bPubW
    "Meet at midnight" "2026-10-11T00:00:00.000Z" 0
    (by decide) (by decide) rfl rfl
    (modelLib_mul_symm 2 3) modelLib_aes
    (fun h => modelLib_sigRange h 2)
    (fun h => modelLib_verify_sign h 2 (by decide))

/-- C2: for every input to `receiveSecureMessage` — any package, any keys,
any instantiation of the external libraries — the `message` field of the
result is non-`none` only when `verified` is `true`; on every failure path
the field is `none`. Stated as: `message` present and `verified` false
never happens. -/
theorem claim2_messageOnlyIfVerified (L : CryptoLib) (pkg : String)
    (rk sp : Bytes) :
    ((receiveSecureMessage L pkg rk sp).message.isSome &&
      !(receiveSecureMessage L pkg rk sp).verified) = false := by
  unfold receiveSecureMessage
  repeat' split
  any_goals rfl
  rename_i isValid
  cases isValid <;> rfl

/-- C3: the ECDH shared key derived by A's private key and B's public key
equals the one derived by B's private key and A's public key, for any
valid key pairs, given the curve's scalar-multiplication symmetry. -/
theorem claim3_deriveSymm (L : CryptoLib) (a b : Nat)
    (aPriv aPub bPriv bPub : Bytes)
    (hA : parsePrivScalar aPriv = some a)
    (hB : parsePrivScalar bPriv = some b)
    (hPA : L.parsePoint aPub = some (L.pubPoint a))
    (hPB : L.parsePoint bPub = some (L.pubPoint b))
    (hsymm : L.mulPoint a (L.pubPoint b) = L.mulPoint b (L.pubPoint a)) :
    deriveECDHSharedKey L aPriv bPub = deriveECDHSharedKey L bPriv aPub := by
  simp only [deriveECDHSharedKey, getSharedSecret, hA, hB, hPA, hPB, Except.map, hsymm]

/-- Witness for C3: both derivations evaluated in the model instantiation
agree, with the symmetry hypothesis discharged by commutativity of the
discrete-log model. -/
theorem claim3_deriveSymm_witness :
    deriveECDHSharedKey modelLib aPrivW bPubW =
      deriveECDHSharedKey modelLib bPrivW aPubW :=
  claim3_deriveSymm modelLib 2 3 aPrivW aPubW bPrivW bPubW
    (by decide) (by decide) rfl rfl (modelLib_mul_symm 2 3)

/-- C5: `receiveSecureMessage` never throws (it is total into
`VerificationResult` — every failure of the TS code lands in the `catch`
that builds `recvFailure`), and on every failure the result carries
`verified = false`, `message = none` and a non-empty error description. -/
theorem claim5_failureShape (L : CryptoLib) (pkg : String) (rk sp : Bytes)
    (hfail : (receiveSecureMessage L pkg rk sp).verified = false) :
    (receiveSecureMessage L pkg rk sp).message = none ∧
    ∃ e, (receiveSecureMessage L pkg rk sp).error = some e ∧ 0 < e.length := by
  rcases receive_failure_shape L pkg rk sp with h | h
  · rw [hfail] at h; exact Bool.noConfusion h
  · exact h

/-- Witness for C5: a concrete failing input (the empty package, whose
decryption yields the falsy empty string) in the model instantiation. -/
theorem claim5_failureShape_witness :
    (receiveSecureMessage modelLib "" bPrivW aPubW).verified = false ∧
    ((receiveSecureMessage modelLib "" bPrivW aPubW).message = none ∧
      ∃ e, (receiveSecureMessage modelLib "" bPrivW aPubW).error = some e ∧
        0 < e.length) :=
  ⟨by decide, claim5_failureShape modelLib "" bPrivW aPubW (by decide)⟩

/-- C9: the empty message round-trips exactly like any other message:
sending `""` and receiving returns `message = ""` and `verified = true`. -/
theorem claim9_emptyMessage (L : CryptoLib) (a b : Nat)
    (aPriv aPub bPriv bPub : Bytes) (ts : String) (rng : Nat)
    (hA : parsePrivScalar aPriv = some a)
    (hB : parsePrivScalar bPriv = some b)
    (hPA : L.parsePoint aPub = some (L.pubPoint a))
    (hPB : L.parsePoint bPub = some (L.pubPoint b))
    (hsymm : L.mulPoint a (L.pubPoint b) = L.mulPoint b (L.pubPoint a))
    (haes : ∀ pt key salt, L.aesDecrypt (L.aesEncrypt pt key salt) key = some pt)
    (hrange : ∀ h, sigRange (L.signRaw h a none))
    (hver : ∀ h, L.verifyRaw (L.signRaw h a none) h aPub = true) :
    (sendSecureMessage L "" aPriv aPub bPub ts rng).map
      (fun pkg => receiveSecureMessage L pkg bPriv aPub) =
    Except.ok { message := some "", verified := true, timestamp := ts,
                fromStr := hexEncode aPub, error := none } :=
  receive_send_roundTrip L a b aPriv aPub bPriv bPub "" ts rng
    hA hB hPA hPB hsymm haes hrange hver

/-- Witness for C9: the empty-message round trip evaluated in the model
instantiation. -/
theorem claim9_emptyMessage_witness :
    (sendSecureMessage modelLib "" aPrivW aPubW bPubW "T" 0).map
      (fun pkg => receiveSecureMessage modelLib pkg bPrivW aPubW) =
    Except.ok { message := some "", verified := true, timestamp := "T",
                fromStr := hexEncode aPubW, error := none } :=
  claim9_emptyMessage modelLib 2 3 aPrivW aPubW bPrivW bPubW "T" 0
    (by decide) (by decide) rfl rfl
    (modelLib_mul_symm 2 3) modelLib_aes
    (fun h => modelLib_sigRange h 2)
    (fun h => modelLib_verify_sign h 2 (by decide))

/-- C6, counterexample: `verifySignature` does NOT return a boolean for
every signature string — on the malformed (non-hex) compact signature
`"zz"` it propagates the exception `secp.Signature.fromCompact` throws
(the call sits outside any try/catch in `verifySignature`), modelled as
`Except.error`, i.e. no boolean is produced. -/
theorem claim6_throws_cex :
    (verifySignature modelLib "hello" "zz" aPubW).toOption = none := by decide

/-- C6, amended: for every signature string that passes compact parsing
(128 hex characters with `r` and `s` in range), `verifySignature` returns
the boolean verdict of `secp.verify` and never throws — `secp.verify`
itself is total and returns `false` (rather than throwing) for bad public
keys or points not on the curve; for signature strings that fail compact
parsing, `verifySignature` throws (and `receiveSecureMessage` catches
that throw). -/
theorem claim6_amended_wellformedBool (L : CryptoLib) (m sigHex : String)
    (pk : Bytes) (rs : Nat × Nat) (h : fromCompact sigHex = Except.ok rs) :
    verifySignature L m sigHex pk =
      Except.ok (L.verifyRaw rs (L.sha256 (utf8Encode m)) pk) := by
  simp only [verifySignature, h]

set_option maxRecDepth 8000 in
/-- Witness for the amended C6: a concrete in-range compact signature, an
arbitrary public key, evaluated in the model instantiation. -/
theorem claim6_amended_wellformedBool_witness :
    fromCompact (toCompactHex (1, 1)) = Except.ok (1, 1) ∧
    verifySignature modelLib "hello" (toCompactHex (1, 1)) aPubW =
      Except.ok (modelLib.verifyRaw (1, 1) (modelLib.sha256 (utf8Encode "hello")) aPubW) :=
  ⟨by decide, claim6_amended_wellformedBool modelLib "hello" (toCompactHex (1, 1))
    aPubW (1, 1) (by decide)⟩

/-- C7: verifying a signature produced by `signMessage` with the matching
public key succeeds, given that the private key parses to the scalar `a`,
the raw signer emits in-range signatures, and raw ECDSA is correct for
the pair (`a`, `pubBytes`). -/
theorem claim7_signVerify (L : CryptoLib) (a : Nat) (privBytes pubBytes : Bytes)
    (m : String) (rand : Nat)
    (hA : parsePrivScalar privBytes = some a)
    (hrange : ∀ h, sigRange (L.signRaw h a none))
    (hver : ∀ h, L.verifyRaw (L.signRaw h a none) h pubBytes = true) :
    (signMessage L m privBytes rand).bind
      (fun sig => verifySignature L m sig pubBytes) = Except.ok true := by
  have hfc := fromCompact_toCompactHex _ (hrange (L.sha256 (utf8Encode m)))
  simp only [signMessage, hA, Except.bind, verifySignature, hfc, hver]

/-- Witness for C7: sign-then-verify evaluated in the model instantiation
at a concrete message and key pair. -/
theorem claim7_signVerify_witness :
    (signMessage modelLib "attack at dawn" aPrivW 0).bind
      (fun sig => verifySignature modelLib "attack at dawn" sig aPubW) =
    Except.ok true :=
  claim7_signVerify modelLib 2 aPrivW aPubW "attack at dawn" 0 (by decide)
    (fun h => modelLib_sigRange h 2)
    (fun h => modelLib_verify_sign h 2 (by decide))

/-- C8: `signMessage` is deterministic — its result does not depend on the
process randomness available during the call (`rand`), because the
implementation signs with an RFC 6979-style deterministic nonce (the
`hmacSha256Sync` hook) and passes no `extraEntropy`; two calls on the same
message and key produce the identical compact-hex signature. -/
theorem claim8_deterministic (L : CryptoLib) (m : String) (sk : Bytes)
    (rand1 rand2 : Nat) :
    signMessage L m sk rand1 = signMessage L m sk rand2 := rfl

/-- C10: every key pair returned by `generateKeyPair` has 32-byte private
key bytes, 65-byte public key bytes in uncompressed SEC1 encoding with
leading `0x04`, and the public bytes are exactly the encoded secp256k1
public point of the private scalar — given that the library's
`randomPrivateKey` returns bytes that parse as a valid private scalar (as
`secp.utils.randomPrivateKey` guarantees). -/
theorem claim10_generateKeyPair (L : CryptoLib) (seed a : Nat)
    (h : parsePrivScalar (L.randomPrivateKey seed) = some a) :
    ∃ kp, generateKeyPair L seed = Except.ok kp ∧
      kp.privateKeyBytes.length = 32 ∧
      kp.publicKeyBytes.length = 65 ∧
      kp.publicKeyBytes.head? = some 4 ∧
      kp.publicKeyBytes = encodeUncompressed L (L.pubPoint a) := by
  have hlen : (L.randomPrivateKey seed).length = 32 := by
    by_cases hl : (L.randomPrivateKey seed).length = 32
    · exact hl
    · rw [parsePrivScalar, if_neg hl] at h
      exact Option.noConfusion h
  refine ⟨⟨L.randomPrivateKey seed, encodeUncompressed L (L.pubPoint a)⟩, ?_, hlen,
    ?_, rfl, rfl⟩
  · simp only [generateKeyPair, getPublicKey, h, Bool.false_eq_true, if_false]
  · simp [encodeUncompressed, natToBytesBE_length]

/-- Witness for C10: key generation evaluated in the model instantiation
at a concrete seed (the model `randomPrivateKey` yields the scalar 6). -/
theorem claim10_generateKeyPair_witness :
    parsePrivScalar (modelLib.randomPrivateKey 5) = some 6 ∧
    (∃ kp, generateKeyPair modelLib 5 = Except.ok kp ∧
      kp.privateKeyBytes.length = 32 ∧
      kp.publicKeyBytes.length = 65 ∧
      kp.publicKeyBytes.head? = some 4 ∧
      kp.publicKeyBytes = encodeUncompressed modelLib (modelLib.pubPoint 6)) :=
  ⟨by decide, claim10_generateKeyPair modelLib 5 6 (by decide)⟩

/-! ### C4: tampering is not always detected

The spec requires the symmetric encryption to be authenticated (AEAD or an
encrypt/MAC composition), so that any single-byte change of an
`EncryptedPackage` is rejected. The code instead uses
`CryptoJS.AES.encrypt(plaintext, passphrase)`: EVP key derivation plus
AES-CBC with PKCS#7 padding and NO authentication tag. Concretely, the
package is an OpenSSL-style Base64 string, and `CryptoJS.AES.decrypt`'s
Base64 parser ignores the unused low bits of the final Base64 character —
so whenever the ciphertext length leaves such slack bits (most lengths),
changing the final character to the other character that shares its used
bits (e.g. `'E' → 'F'` before a single `'='`) is a single-byte modification
of the package that decrypts to the identical plaintext: the receiver
returns `verified = true` and exposes the message.

`cbcLib` reproduces exactly this many-to-one decryption at the model
level: encryption appends a final marker character `'B'` and decryption
accepts either `'B'` or `'C'` there, decrypting both to the same
plaintext, just as the Base64 layer of CryptoJS does with slack bits. -/
def cbcLib : CryptoLib :=
  { modelLib with
    aesEncrypt := fun pt _key _salt => pt ++ "B"
    aesDecrypt := fun ct _key =>
      if ct.data.getLast? = some 'B' ∨ ct.data.getLast? = some 'C' then
        some (String.mk ct.data.dropLast)
      else none }

/-- The package Alice sends in the C4 scenario (model instantiation with
the CryptoJS-like malleable encoding). -/
def pkgW : String :=
  (sendSecureMessage cbcLib "hi" aPrivW aPubW bPubW "T" 0).toOption.getD ""

/-- `pkgW` with its final character changed — a single-byte modification. -/
def tamperW : String := String.mk (pkgW.data.dropLast ++ ['C'])

set_option maxRecDepth 20000 in
/-- C4 is violated by the code: the encryption is not authenticated, and
there is a single-character modification `tamperW` of the sent package
`pkgW` (same length, exactly one differing position) that
`receiveSecureMessage` accepts with `verified = true`, exposing the
message, instead of returning `verified = false` as the claim demands. -/
theorem claim4_tamper_not_detected :
    sendSecureMessage cbcLib "hi" aPrivW aPubW bPubW "T" 0 = Except.ok pkgW ∧
    tamperW ≠ pkgW ∧
    tamperW.length = pkgW.length ∧
    (tamperW.data.zip pkgW.data).countP (fun p => p.1 ≠ p.2) = 1 ∧
    (receiveSecureMessage cbcLib tamperW bPrivW aPubW).verified = true ∧
    (receiveSecureMessage cbcLib tamperW bPrivW aPubW).message = some "hi" := by
  refine ⟨by decide, by decide, by decide, by decide, by decide, by decide⟩

end SecureMessaging
